import Mathlib

/-!
Verification of the Risk & Alert Engine of the `trading` repository.

This file gives a shallow embedding, in Lean 4, of the computation and
decision core of the repository's risk-management and monitoring services:

* the risk-metric functions of `risk-management-service/main.py`
  (`calculate_var`, `calculate_expected_shortfall`, `calculate_sharpe_ratio`,
  `calculate_sortino_ratio`, `calculate_max_drawdown`);
* the threshold evaluators of `monitoring-services/alert_manager.py`
  (`check_thresholds`) and `monitoring-services/app/alert_manager.py`
  (`check_metrics`);
* the cooldown gate of `monitoring-services/app/alert_manager.py`
  (`_send_alert` / `send_alert` / `_check_cooldown`, including the effect of
  the shadowed `_save_alert_history` method on `_send_alert`);
* the alert resolution handlers of `risk-management-service/main.py` and
  `monitoring-services/main.py` (`resolve_alert`);
* the notification dispatcher of `monitoring-services/alert_sender.py`
  (`send_alert` / `send_email` / `send_slack`).

Python floats are modelled as rationals (`ℚ`).  The one place where float
semantics matters is division by a zero standard deviation: NumPy produces
`inf`/`nan` there instead of raising, and a standard deviation is an
irrational square root, so ratio-of-mean-to-stddev results are represented
symbolically by the `MetricResult` type below.  Fallible NumPy calls
(`np.percentile` / `np.min` on an empty array raise; `np.mean` of an empty
array is `nan`) are modelled with `Except` / `Option`.
-/

namespace Trading

/-- `np.mean(xs)`: sum divided by length.  NumPy returns `nan` for an empty
array; this total version is only ever used under a nonemptiness guarantee
(see `npMeanNaN` for the guarded version). -/
def npMean (xs : List ℚ) : ℚ := xs.sum / (xs.length : ℚ)

/-- `np.mean(xs)` with NumPy's empty-array behaviour made explicit:
`none` models the `nan` produced for an empty array. -/
def npMeanNaN (xs : List ℚ) : Option ℚ :=
  if xs = [] then none else some (npMean xs)

/-- The population variance underlying `np.std(xs)` (NumPy's default
`ddof=0`): mean of squared deviations from the mean.  `np.std` itself is the
square root of this quantity; we keep the variance because the square root of
a rational is irrational in general.  `np.std xs = 0 ↔ npPopVar xs = 0`. -/
def npPopVar (xs : List ℚ) : ℚ :=
  npMean (xs.map (fun x => (x - npMean xs) ^ 2))

/-- Result of a float computation of the form `mean / std`.

* `undef` — the divisor (a standard deviation) is zero, so the float result
  is `inf` or `nan` (NumPy emits a runtime warning and does not raise);
* `val q` — an exact rational result (used for literal returns such as `0`);
* `ratio n v` — the real number `n / Real.sqrt v` with `v ≠ 0`, kept
  symbolically since the square root is irrational in general. -/
inductive MetricResult where
  | undef : MetricResult
  | val : ℚ → MetricResult
  | ratio : ℚ → ℚ → MetricResult
deriving DecidableEq

/-- The real value denoted by a `MetricResult` is zero.  `undef` (an `inf` or
`nan` float) is not zero; `ratio n v` with `v ≠ 0` is zero exactly when its
numerator is. -/
def MetricResult.IsZero : MetricResult → Prop
  | .undef => False
  | .val q => q = 0
  | .ratio n _ => n = 0

/-- Float division of a mean `num` by the standard deviation
`Real.sqrt varDenom`: `undef` (i.e. `inf`/`nan`) when the standard deviation
is zero, otherwise the symbolic quotient. -/
def divStd (num varDenom : ℚ) : MetricResult :=
  if varDenom = 0 then .undef else .ratio num varDenom

/-- `calculate_sharpe_ratio` (risk-management-service/main.py, lines 128-131):
`excess = returns - rfr; return np.mean(excess) / np.std(excess)`.
There is no guard for a zero standard deviation. -/
def calculate_sharpe_ratio (returns : List ℚ) (risk_free_rate : ℚ) : MetricResult :=
  divStd (npMean (returns.map (fun r => r - risk_free_rate)))
    (npPopVar (returns.map (fun r => r - risk_free_rate)))

/-- `calculate_sortino_ratio` (risk-management-service/main.py, lines
133-139): `downside = excess[excess < 0]; if len(downside) == 0: return 0;
return np.mean(excess) / np.std(downside)`. -/
def calculate_sortino_ratio (returns : List ℚ) (risk_free_rate : ℚ) : MetricResult :=
  if (returns.map (fun r => r - risk_free_rate)).filter (fun e => e < 0) = [] then
    .val 0
  else
    divStd (npMean (returns.map (fun r => r - risk_free_rate)))
      (npPopVar ((returns.map (fun r => r - risk_free_rate)).filter (fun e => e < 0)))

/-- The "negative excess returns" exactly as the spec words them: the returns
falling below the risk-free rate, shifted by it.  Used on the specification
side of claim C9; the code-side filter acts on the already-shifted list. -/
def specDownside (returns : List ℚ) (risk_free_rate : ℚ) : List ℚ :=
  (returns.filter (fun r => r < risk_free_rate)).map (fun r => r - risk_free_rate)

/-- `np.sort` (ascending).  NumPy's sort agrees with any comparison sort on a
linear order, so insertion sort is a faithful model. -/
def npSort (xs : List ℚ) : List ℚ := List.insertionSort (· ≤ ·) xs

/-- `np.percentile(xs, q)` with the default linear-interpolation method, for
`xs ≠ []` and `0 ≤ q ≤ 100`: with `s` the ascending sort of `xs` and
`h = q/100 * (len(xs) - 1)`, interpolate between `s[⌊h⌋]` and `s[⌊h⌋ + 1]`.
The second `getD` default is `s[⌊h⌋]`, which is only reached when the
fractional part is zero and the interpolation term vanishes. -/
def npPercentile (xs : List ℚ) (q : ℚ) : ℚ :=
  (npSort xs).getD (⌊q / 100 * ((xs.length : ℚ) - 1)⌋₊) 0 +
    (q / 100 * ((xs.length : ℚ) - 1) - (⌊q / 100 * ((xs.length : ℚ) - 1)⌋₊ : ℚ)) *
      ((npSort xs).getD (⌊q / 100 * ((xs.length : ℚ) - 1)⌋₊ + 1)
          ((npSort xs).getD (⌊q / 100 * ((xs.length : ℚ) - 1)⌋₊) 0) -
        (npSort xs).getD (⌊q / 100 * ((xs.length : ℚ) - 1)⌋₊) 0)

/-- The spec's percentile, "linear interpolation between ranks", stated as the
convex combination `(1 - frac) * s[lo] + frac * s[lo+1]` of the two adjacent
ranks.  Specification-side definition for the refinement claim C4. -/
def specPercentile (xs : List ℚ) (q : ℚ) : ℚ :=
  (1 - (q / 100 * ((xs.length : ℚ) - 1) - (⌊q / 100 * ((xs.length : ℚ) - 1)⌋₊ : ℚ))) *
      (npSort xs).getD (⌊q / 100 * ((xs.length : ℚ) - 1)⌋₊) 0 +
    (q / 100 * ((xs.length : ℚ) - 1) - (⌊q / 100 * ((xs.length : ℚ) - 1)⌋₊ : ℚ)) *
      (npSort xs).getD (⌊q / 100 * ((xs.length : ℚ) - 1)⌋₊ + 1)
        ((npSort xs).getD (⌊q / 100 * ((xs.length : ℚ) - 1)⌋₊) 0)

/-- Failure taxonomy of the metric functions.  `insufficientData` is the
spec's name for the error NumPy raises on an empty series;
`invalidPercentile` is NumPy's rejection of a percentile outside [0, 100]. -/
inductive VarError where
  | insufficientData : VarError
  | invalidPercentile : VarError
deriving DecidableEq

/-- `calculate_var` (risk-management-service/main.py, lines 119-121):
`np.percentile(returns, (1 - confidence_level) * 100)`.  NumPy raises on a
percentile outside [0, 100] and on an empty array; both are modelled as
`Except` errors. -/
def calculate_var (returns : List ℚ) (confidence_level : ℚ) : Except VarError ℚ :=
  if (1 - confidence_level) * 100 < 0 ∨ 100 < (1 - confidence_level) * 100 then
    .error .invalidPercentile
  else if returns = [] then
    .error .insufficientData
  else
    .ok (npPercentile returns ((1 - confidence_level) * 100))

/-- `calculate_expected_shortfall` (risk-management-service/main.py, lines
123-126): `var = calculate_var(...); return np.mean([r for r in returns if
r <= var])`.  The inner `Option` is `np.mean`'s `nan` on an empty list. -/
def calculate_expected_shortfall (returns : List ℚ) (confidence_level : ℚ) :
    Except VarError (Option ℚ) :=
  (calculate_var returns confidence_level).map
    (fun var => npMeanNaN (returns.filter (fun r => r ≤ var)))

/-- `np.cumprod` seeded with an accumulator: running products of the input. -/
def cumprodFrom (acc : ℚ) : List ℚ → List ℚ
  | [] => []
  | x :: xs => (acc * x) :: cumprodFrom (acc * x) xs

/-- `np.cumprod(xs)`. -/
def npCumprod (xs : List ℚ) : List ℚ := cumprodFrom 1 xs

/-- `np.maximum.accumulate` continued from a current maximum `m`. -/
def runmaxFrom (m : ℚ) : List ℚ → List ℚ
  | [] => []
  | x :: xs => (max m x) :: runmaxFrom (max m x) xs

/-- `np.maximum.accumulate(xs)`: running maxima, first entry the first
element. -/
def npMaxAccumulate : List ℚ → List ℚ
  | [] => []
  | x :: xs => x :: runmaxFrom x xs

/-- `np.min(xs)`: `none` models the exception NumPy raises on an empty
array. -/
def npMin : List ℚ → Option ℚ
  | [] => none
  | x :: xs => some (xs.foldl min x)

/-- The elementwise array `(cumulative - running_max) / running_max` of
`calculate_max_drawdown`, with `cumulative = np.cumprod(1 + returns)` and
`running_max = np.maximum.accumulate(cumulative)`. -/
def drawdownList (returns : List ℚ) : List ℚ :=
  List.zipWith (fun c m => (c - m) / m)
    (npCumprod (returns.map (fun r => 1 + r)))
    (npMaxAccumulate (npCumprod (returns.map (fun r => 1 + r))))

/-- `calculate_max_drawdown` (risk-management-service/main.py, lines 141-146):
`cumulative = np.cumprod(1 + returns); running_max =
np.maximum.accumulate(cumulative); return np.min((cumulative - running_max) /
running_max)`. -/
def calculate_max_drawdown (returns : List ℚ) : Option ℚ :=
  npMin (drawdownList returns)

/-- Specification-side cumulative value after period `i` (0-based): the
product of `(1 + r)` over the first `i + 1` returns. -/
def specCumulative (returns : List ℚ) (i : ℕ) : ℚ :=
  ((returns.take (i + 1)).map (fun r => 1 + r)).prod

/-- Specification-side running maximum of the cumulative values up to
period `i`. -/
def specRunningMax (returns : List ℚ) : ℕ → ℚ
  | 0 => specCumulative returns 0
  | i + 1 => max (specRunningMax returns i) (specCumulative returns (i + 1))

/-- Specification-side drawdown at period `i`:
`(cumulative - runningMax) / runningMax`. -/
def specDrawdown (returns : List ℚ) (i : ℕ) : ℚ :=
  (specCumulative returns i - specRunningMax returns i) / specRunningMax returns i

/-- A candidate alert as built by the threshold evaluators: alert type tag,
measured value, configured threshold.  The human-readable message string is
formatting only and is not modelled.  `atype` stands for the `'type'` key of
the Python dict. -/
structure ThresholdAlert where
  atype : String
  value : ℚ
  threshold : ℚ
deriving DecidableEq

/-- The `thresholds` dict of `monitoring-services/alert_manager.py`
(`AlertManager.__init__`): cpu / memory / disk thresholds. -/
structure Thresholds where
  cpu : ℚ
  memory : ℚ
  disk : ℚ

/-- A resource metrics sample as consumed by
`AlertManager.check_thresholds`. -/
structure ResourceSample where
  cpu : ℚ
  memory : ℚ
  disk : ℚ

/-- `AlertManager.check_thresholds` (monitoring-services/alert_manager.py,
lines 45-76): appends one candidate alert per metric whose value is strictly
greater than its threshold, in cpu, memory, disk order. -/
def check_thresholds (th : Thresholds) (metrics : ResourceSample) : List ThresholdAlert :=
  (if metrics.cpu > th.cpu then [⟨"cpu", metrics.cpu, th.cpu⟩] else []) ++
    (if metrics.memory > th.memory then [⟨"memory", metrics.memory, th.memory⟩] else []) ++
      (if metrics.disk > th.disk then [⟨"disk", metrics.disk, th.disk⟩] else [])

/-- The threshold fields of the `AlertConfig` row used by
`AlertManager.check_metrics` (monitoring-services/app/models.py,
monitoring-services/app/alert_manager.py). -/
structure AppAlertConfig where
  cpu_threshold : ℚ
  memory_threshold : ℚ
  disk_threshold : ℚ
  network_in_threshold : ℚ
  network_out_threshold : ℚ

/-- A system metrics sample as consumed by `AlertManager.check_metrics`. -/
structure SystemSample where
  cpu_usage : ℚ
  memory_usage : ℚ
  disk_usage : ℚ
  network_in : ℚ
  network_out : ℚ

/-- The candidate-building portion of `AlertManager.check_metrics`
(monitoring-services/app/alert_manager.py, lines 55-103): one candidate per
metric strictly above its configured threshold; each candidate is then passed
to `_send_alert`. -/
def check_metrics (cfg : AppAlertConfig) (metrics : SystemSample) : List ThresholdAlert :=
  (if metrics.cpu_usage > cfg.cpu_threshold then
      [⟨"cpu_usage", metrics.cpu_usage, cfg.cpu_threshold⟩] else []) ++
    (if metrics.memory_usage > cfg.memory_threshold then
        [⟨"memory_usage", metrics.memory_usage, cfg.memory_threshold⟩] else []) ++
      (if metrics.disk_usage > cfg.disk_threshold then
          [⟨"disk_usage", metrics.disk_usage, cfg.disk_threshold⟩] else []) ++
        (if metrics.network_in > cfg.network_in_threshold then
            [⟨"network_in", metrics.network_in, cfg.network_in_threshold⟩] else []) ++
          (if metrics.network_out > cfg.network_out_threshold then
              [⟨"network_out", metrics.network_out, cfg.network_out_threshold⟩] else [])

/-- An alert presented to `AlertManager._send_alert`
(monitoring-services/app/alert_manager.py): the alert type together with
`alert.get('service_name', '')`, which is `""` for resource alerts. -/
structure CandidateAlert where
  atype : String
  service_name : String
deriving DecidableEq

/-- The cooldown key `f"{alert['type']}_{alert.get('service_name', '')}"` of
`_send_alert`, modelled as the (type, subject) pair it concatenates. -/
def alertKey (a : CandidateAlert) : String × String := (a.atype, a.service_name)

/-- The mutable state of `AlertManager` touched by `_send_alert`:
`self.last_alert_time` (cooldown map), the persisted alert history rows, and
the notifications handed to `self.alert_sender`.  Wall-clock `time.time()`
values are rationals. -/
structure AMState where
  last_alert_time : String × String → Option ℚ
  history : List CandidateAlert
  sent : List CandidateAlert

/-- `AlertManager._send_alert` (monitoring-services/app/alert_manager.py,
lines 124-153) as a state transition at wall-clock time `now`.  The cooldown
test (lines 130-134) drops the candidate with no effect when the key fired
within the cooldown period.  Otherwise the notification is sent (lines
137-144), and then `self._save_alert_history(alert)` at line 147 raises
`TypeError`: the 3-parameter `_save_alert_history` defined at line 352
shadows the 1-parameter dict version at line 190, so the 1-argument call
cannot bind.  The `except Exception` at line 152 swallows the error, hence
no history row is ever written and line 150's
`last_alert_time[key] = time.time()` is dead code.  The returned flag
records whether the candidate passed the cooldown check (and was sent). -/
def send_alert_step (cooldown_period : ℚ) (st : AMState) (a : CandidateAlert) (now : ℚ) :
    AMState × Bool :=
  match st.last_alert_time (alertKey a) with
  | some last =>
    if now - last < cooldown_period then
      (st, false)
    else
      (⟨st.last_alert_time, st.history, st.sent ++ [a]⟩, true)
  | none =>
    (⟨st.last_alert_time, st.history, st.sent ++ [a]⟩, true)

/-- `AlertManager._check_cooldown` (monitoring-services/app/alert_manager.py,
lines 289-295): admit when the alert type has never fired or when
`now - last ≥ cooldown_period`. -/
def check_cooldown (cooldown_period : ℚ) (last_alert_time : String → Option ℚ)
    (alert_type : String) (now : ℚ) : Bool :=
  match last_alert_time alert_type with
  | none => true
  | some last => decide (now - last ≥ cooldown_period)

/-- The configuration fields of the `AlertConfig` row consulted by
`AlertManager.send_alert` (monitoring-services/app/alert_manager.py, lines
254-287). -/
structure SendConfig where
  enabled : Bool
  email_enabled : Bool
  slack_enabled : Bool

/-- The state touched by `AlertManager.send_alert`: the cooldown map keyed
by the alert type alone, the `(alert_type, severity, message)` history rows
written by the 3-parameter `_save_alert_history` (line 352 — the binding
that works on this path), and the notifications handed to the e-mail and
Slack senders. -/
structure SendAlertState where
  last_alert_time : String → Option ℚ
  history : List (String × String × String)
  emails : List (String × String × String)
  slacks : List (String × String × String)

/-- Outcome of one `send_alert` call: suppressed by the cooldown, dropped
for a missing or disabled configuration, or fully sent. -/
inductive SendAlertOutcome where
  | suppressed : SendAlertOutcome
  | noConfig : SendAlertOutcome
  | disabled : SendAlertOutcome
  | sent : SendAlertOutcome
deriving DecidableEq

/-- `AlertManager.send_alert` (monitoring-services/app/alert_manager.py,
lines 254-287): return early with no effect when `_check_cooldown` refuses,
when no config row exists, or when alerting is disabled; otherwise send the
per-channel notifications (each sender catches its own failures), write a
history row, and set `last_alert_time[alert_type] := now`.  Only this full
admission path mutates any state. -/
def send_alert_typed (cooldown_period : ℚ) (st : SendAlertState)
    (alert_type severity message : String) (cfg : Option SendConfig) (now : ℚ) :
    SendAlertState × SendAlertOutcome :=
  if check_cooldown cooldown_period st.last_alert_time alert_type now then
    match cfg with
    | none => (st, .noConfig)
    | some c =>
      if c.enabled then
        (⟨fun k => if k = alert_type then some now else st.last_alert_time k,
          st.history ++ [(alert_type, severity, message)],
          if c.email_enabled then st.emails ++ [(alert_type, severity, message)]
            else st.emails,
          if c.slack_enabled then st.slacks ++ [(alert_type, severity, message)]
            else st.slacks⟩, .sent)
      else (st, .disabled)
  else (st, .suppressed)

/-- A `risk_alerts` row as touched by `resolve_alert`
(risk-management-service/main.py): primary key and nullable `resolved_at`
timestamp.  The table has no `resolved_by` column. -/
structure RiskAlertRow where
  id : ℕ
  resolved_at : Option ℚ
deriving DecidableEq

/-- The HTTP status code a failed resolve surfaces to the caller.  Both
resolve handlers raise `HTTPException(404, ...)` inside a `try` whose
`except Exception` clause catches it (FastAPI's `HTTPException` subclasses
`Exception`) and re-raises `HTTPException(500, ...)`, so the status the
caller observes is 500; the detail strings are formatting and are not
modelled. -/
structure HTTPError where
  status_code : ℕ
deriving DecidableEq

/-- The mutation `alert.resolved_at = datetime.utcnow()` applied to the first
row matching the id (SQLAlchemy's `.first()` on the id filter). -/
def setResolved (alert_id : ℕ) (now : ℚ) : List RiskAlertRow → List RiskAlertRow
  | [] => []
  | a :: rest =>
    if a.id = alert_id then { a with resolved_at := some now } :: rest
    else a :: setResolved alert_id now rest

/-- `resolve_alert` (risk-management-service/main.py, lines 372-388): look up
the alert by id.  When it is absent the handler raises
`HTTPException(404, "Alert not found")` inside its `try`, the
`except Exception` at line 386 catches that exception, and line 388
re-raises `HTTPException(500, "Failed to resolve alert")` — the caller
receives a 500, never a 404.  When the alert exists, `resolved_at` is
unconditionally set to the current time and the call succeeds. -/
def resolve_alert (db : List RiskAlertRow) (alert_id : ℕ) (now : ℚ) :
    Except HTTPError (List RiskAlertRow) :=
  match db.find? (fun a => a.id = alert_id) with
  | none => .error ⟨500⟩
  | some _ => .ok (setResolved alert_id now db)

/-- An `alerts` row as touched by `resolve_alert`
(monitoring-services/main.py): primary key and boolean `resolved` flag. -/
structure MonAlertRow where
  id : ℕ
  resolved : Bool
deriving DecidableEq

/-- The monitoring service's `alert.resolved = True` on the first row
matching the id. -/
def monSetResolved (alert_id : ℕ) : List MonAlertRow → List MonAlertRow
  | [] => []
  | a :: rest =>
    if a.id = alert_id then { a with resolved := true } :: rest
    else a :: monSetResolved alert_id rest

/-- `resolve_alert` (monitoring-services/main.py, lines 289-301): set
`resolved = True` on the alert when present.  When it is absent the handler
raises `HTTPException(404, "Alert not found")` inside its `try`; the
`except Exception` clause catches it and re-raises
`HTTPException(500, str(e))`, so the caller receives a 500, never a 404. -/
def mon_resolve_alert (db : List MonAlertRow) (alert_id : ℕ) :
    Except HTTPError (List MonAlertRow) :=
  match db.find? (fun a => a.id = alert_id) with
  | none => .error ⟨500⟩
  | some _ => .ok (monSetResolved alert_id db)

/-- The SMTP credential fields read by `AlertSender.__init__`
(monitoring-services/alert_sender.py); `""` models an unset environment
variable (both `None` and `""` are falsy for Python's `all`). -/
structure EmailConfig where
  smtp_user : String
  smtp_password : String
  smtp_from : String
  smtp_to : String

/-- The `all([smtp_user, smtp_password, smtp_from, smtp_to])` completeness
check of `AlertSender.send_email`. -/
def emailConfigComplete (cfg : EmailConfig) : Bool :=
  cfg.smtp_user ≠ "" ∧ cfg.smtp_password ≠ "" ∧ cfg.smtp_from ≠ "" ∧ cfg.smtp_to ≠ ""

/-- `AlertSender.send_email` (monitoring-services/alert_sender.py, lines
76-103): `False` when the configuration is incomplete; otherwise attempt the
SMTP interaction `op` (which may raise), catch any exception and return
`False`, return `True` on success.  The function itself never raises. -/
def send_email (cfg : EmailConfig) (op : Except String Unit) : Bool :=
  if emailConfigComplete cfg then
    match op with
    | .ok _ => true
    | .error _ => false
  else false

/-- `AlertSender.send_slack` (monitoring-services/alert_sender.py, lines
105-138): `False` when no webhook URL is configured; otherwise attempt the
webhook post `op`, catching any exception. -/
def send_slack (slack_webhook_url : String) (op : Except String Unit) : Bool :=
  if slack_webhook_url = "" then false
  else
    match op with
    | .ok _ => true
    | .error _ => false

/-- The spec's dispatch outcome taxonomy (§4.4): overall success, or the
`AllChannelsFailed` condition.  Specification-side type for claim C7. -/
inductive DispatchResult where
  | success : DispatchResult
  | allChannelsFailed : DispatchResult
deriving DecidableEq

/-- Observable outcome of one `AlertSender.send_alert` call: the per-channel
results, whether the all-channels-failed error was logged, and the value
returned to the caller.  The Python function's return type is `None`, so
`returned` is what (if anything) the caller can observe. -/
structure DispatchOutcome where
  email_sent : Bool
  slack_sent : Bool
  logged_all_failed : Bool
  returned : Option DispatchResult
deriving DecidableEq

/-- The template keys of `AlertSender.templates`. -/
def alertTemplates : List String := ["service_down", "high_resource"]

/-- `AlertSender.send_alert` (monitoring-services/alert_sender.py, lines
140-150): drop unknown alert types; otherwise call `send_email` then
`send_slack` (each catching its own failures), log an error when both
report failure, and return `None` — nothing is surfaced to the caller. -/
def send_alert (alert_type : String) (cfg : EmailConfig) (slack_webhook_url : String)
    (emailOp slackOp : Except String Unit) : DispatchOutcome :=
  if alert_type ∈ alertTemplates then
    ⟨send_email cfg emailOp, send_slack slack_webhook_url slackOp,
      !send_email cfg emailOp && !send_slack slack_webhook_url slackOp, none⟩
  else
    ⟨false, false, false, none⟩

/-! ### Helper lemmas -/

/-- The sum of a list all of whose elements equal `d` is `length • d`. -/
theorem sum_of_const (ys : List ℚ) (d : ℚ) (h : ∀ y ∈ ys, y = d) :
    ys.sum = (ys.length : ℚ) * d := by
  induction ys with
  | nil => simp
  | cons y t ih =>
    have hy : y = d := h y (List.mem_cons_self y t)
    have ht : ∀ y ∈ t, y = d := fun y hy => h y (List.mem_cons_of_mem _ hy)
    simp only [List.sum_cons, List.length_cons, hy, ih ht]
    push_cast
    ring

/-- The mean of a nonempty constant list is the constant. -/
theorem npMean_const (ys : List ℚ) (d : ℚ) (hne : ys ≠ []) (h : ∀ y ∈ ys, y = d) :
    npMean ys = d := by
  have hlen : (ys.length : ℚ) ≠ 0 := by
    simpa using List.length_pos.mpr hne |>.ne'
  rw [npMean, sum_of_const ys d h, mul_comm, mul_div_assoc, div_self hlen, mul_one]

/-- The population variance of a nonempty constant list is zero. -/
theorem npPopVar_const (ys : List ℚ) (d : ℚ) (hne : ys ≠ []) (h : ∀ y ∈ ys, y = d) :
    npPopVar ys = 0 := by
  rw [npPopVar]
  have hmean := npMean_const ys d hne h
  have hz : ∀ z ∈ ys.map (fun x => (x - npMean ys) ^ 2), z = 0 := by
    intro z hz
    rcases List.mem_map.mp hz with ⟨y, hy, rfl⟩
    rw [h y hy, hmean, sub_self, zero_pow]
    norm_num
  rw [npMean, sum_of_const _ 0 hz, mul_zero, zero_div]

/-- Membership in a conditionally produced singleton. -/
theorem mem_ite_singleton {α : Type} (c : Prop) [Decidable c] (x a : α) :
    (a ∈ if c then [x] else []) ↔ c ∧ a = x := by
  split <;> simp [*]

/-- The code's downside filter (filter the shifted list) agrees with the
spec's (shift the filtered list). -/
theorem downside_filter_eq (returns : List ℚ) (rfr : ℚ) :
    (returns.map (fun r => r - rfr)).filter (fun e => e < 0) = specDownside returns rfr := by
  rw [specDownside, List.filter_map]
  congr 1
  apply List.filter_congr
  intro r _
  simp [Function.comp, sub_neg]

/-! ### Claim C2 — strict greater-than threshold comparison -/

/-- C2: Both threshold evaluators (`check_thresholds` of
monitoring-services/alert_manager.py and the candidate list of
`check_metrics` of monitoring-services/app/alert_manager.py) emit a
candidate exactly for the metrics whose observed value is strictly greater
than the configured threshold, carrying that value and threshold; a value
exactly equal to its threshold never yields a candidate of that type. -/
theorem C2_strict_threshold (th : Thresholds) (m : ResourceSample)
    (cfg : AppAlertConfig) (s : SystemSample) :
    (∀ a, a ∈ check_thresholds th m ↔
      ((m.cpu > th.cpu ∧ a = ⟨"cpu", m.cpu, th.cpu⟩) ∨
        (m.memory > th.memory ∧ a = ⟨"memory", m.memory, th.memory⟩) ∨
          (m.disk > th.disk ∧ a = ⟨"disk", m.disk, th.disk⟩))) ∧
    (∀ a, a ∈ check_metrics cfg s ↔
      ((s.cpu_usage > cfg.cpu_threshold ∧ a = ⟨"cpu_usage", s.cpu_usage, cfg.cpu_threshold⟩) ∨
        (s.memory_usage > cfg.memory_threshold ∧
            a = ⟨"memory_usage", s.memory_usage, cfg.memory_threshold⟩) ∨
          (s.disk_usage > cfg.disk_threshold ∧
              a = ⟨"disk_usage", s.disk_usage, cfg.disk_threshold⟩) ∨
            (s.network_in > cfg.network_in_threshold ∧
                a = ⟨"network_in", s.network_in, cfg.network_in_threshold⟩) ∨
              (s.network_out > cfg.network_out_threshold ∧
                  a = ⟨"network_out", s.network_out, cfg.network_out_threshold⟩))) ∧
    (∀ a ∈ check_thresholds th m, a.value > a.threshold) ∧
    (∀ a ∈ check_metrics cfg s, a.value > a.threshold) ∧
    (m.cpu = th.cpu → ∀ a ∈ check_thresholds th m, a.atype ≠ "cpu") ∧
    (m.memory = th.memory → ∀ a ∈ check_thresholds th m, a.atype ≠ "memory") ∧
    (m.disk = th.disk → ∀ a ∈ check_thresholds th m, a.atype ≠ "disk") ∧
    (s.cpu_usage = cfg.cpu_threshold → ∀ a ∈ check_metrics cfg s, a.atype ≠ "cpu_usage") ∧
    (s.memory_usage = cfg.memory_threshold →
      ∀ a ∈ check_metrics cfg s, a.atype ≠ "memory_usage") ∧
    (s.disk_usage = cfg.disk_threshold → ∀ a ∈ check_metrics cfg s, a.atype ≠ "disk_usage") ∧
    (s.network_in = cfg.network_in_threshold →
      ∀ a ∈ check_metrics cfg s, a.atype ≠ "network_in") ∧
    (s.network_out = cfg.network_out_threshold →
      ∀ a ∈ check_metrics cfg s, a.atype ≠ "network_out") := by
  have h1 : ∀ a, a ∈ check_thresholds th m ↔
      ((m.cpu > th.cpu ∧ a = ⟨"cpu", m.cpu, th.cpu⟩) ∨
        (m.memory > th.memory ∧ a = ⟨"memory", m.memory, th.memory⟩) ∨
          (m.disk > th.disk ∧ a = ⟨"disk", m.disk, th.disk⟩)) := by
    intro a
    simp only [check_thresholds, List.mem_append, mem_ite_singleton, or_assoc]
  have h2 : ∀ a, a ∈ check_metrics cfg s ↔
      ((s.cpu_usage > cfg.cpu_threshold ∧ a = ⟨"cpu_usage", s.cpu_usage, cfg.cpu_threshold⟩) ∨
        (s.memory_usage > cfg.memory_threshold ∧
            a = ⟨"memory_usage", s.memory_usage, cfg.memory_threshold⟩) ∨
          (s.disk_usage > cfg.disk_threshold ∧
              a = ⟨"disk_usage", s.disk_usage, cfg.disk_threshold⟩) ∨
            (s.network_in > cfg.network_in_threshold ∧
                a = ⟨"network_in", s.network_in, cfg.network_in_threshold⟩) ∨
              (s.network_out > cfg.network_out_threshold ∧
                  a = ⟨"network_out", s.network_out, cfg.network_out_threshold⟩)) := by
    intro a
    simp only [check_metrics, List.mem_append, mem_ite_singleton, or_assoc]
  refine ⟨h1, h2, ?_, ?_, ?_, ?_, ?_, ?_, ?_, ?_, ?_, ?_⟩
  · intro a ha
    rcases (h1 a).mp ha with ⟨h, rfl⟩ | ⟨h, rfl⟩ | ⟨h, rfl⟩ <;> exact h
  · intro a ha
    rcases (h2 a).mp ha with ⟨h, rfl⟩ | ⟨h, rfl⟩ | ⟨h, rfl⟩ | ⟨h, rfl⟩ | ⟨h, rfl⟩ <;> exact h
  · intro he a ha
    rcases (h1 a).mp ha with ⟨h, rfl⟩ | ⟨h, rfl⟩ | ⟨h, rfl⟩ <;> simp_all
  · intro he a ha
    rcases (h1 a).mp ha with ⟨h, rfl⟩ | ⟨h, rfl⟩ | ⟨h, rfl⟩ <;> simp_all
  · intro he a ha
    rcases (h1 a).mp ha with ⟨h, rfl⟩ | ⟨h, rfl⟩ | ⟨h, rfl⟩ <;> simp_all
  · intro he a ha
    rcases (h2 a).mp ha with ⟨h, rfl⟩ | ⟨h, rfl⟩ | ⟨h, rfl⟩ | ⟨h, rfl⟩ | ⟨h, rfl⟩ <;> simp_all
  · intro he a ha
    rcases (h2 a).mp ha with ⟨h, rfl⟩ | ⟨h, rfl⟩ | ⟨h, rfl⟩ | ⟨h, rfl⟩ | ⟨h, rfl⟩ <;> simp_all
  · intro he a ha
    rcases (h2 a).mp ha with ⟨h, rfl⟩ | ⟨h, rfl⟩ | ⟨h, rfl⟩ | ⟨h, rfl⟩ | ⟨h, rfl⟩ <;> simp_all
  · intro he a ha
    rcases (h2 a).mp ha with ⟨h, rfl⟩ | ⟨h, rfl⟩ | ⟨h, rfl⟩ | ⟨h, rfl⟩ | ⟨h, rfl⟩ <;> simp_all
  · intro he a ha
    rcases (h2 a).mp ha with ⟨h, rfl⟩ | ⟨h, rfl⟩ | ⟨h, rfl⟩ | ⟨h, rfl⟩ | ⟨h, rfl⟩ <;> simp_all

/-- Witness for C2 at concrete inputs: value 85 against threshold 80 alerts,
value 80 against threshold 80 does not. -/
theorem C2_witness :
    ((⟨"cpu", 85, 80⟩ : ThresholdAlert) ∈ check_thresholds ⟨80, 85, 90⟩ ⟨85, 85, 90⟩) ∧
    (∀ a ∈ check_thresholds ⟨80, 85, 90⟩ ⟨85, 85, 90⟩, a.atype ≠ "memory") := by
  rcases C2_strict_threshold ⟨80, 85, 90⟩ ⟨85, 85, 90⟩ ⟨1, 1, 1, 1, 1⟩ ⟨0, 0, 0, 0, 0⟩ with
    ⟨h1, _, _, _, _, hmem, _⟩
  constructor
  · exact (h1 _).mpr (Or.inl ⟨by norm_num, rfl⟩)
  · exact hmem rfl

/-! ### Claim C3 — Sharpe ratio of a constant series -/

/-- C3 counterexample: on the constant series `[0.01, 0.01, 0.01]` the code
`calculate_sharpe_ratio` divides its mean by a zero standard deviation, so
the float result is `inf`/`nan` (`MetricResult.undef`), and in particular it
is not the value `0` the claim asserts. -/
theorem C3_counterexample :
    calculate_sharpe_ratio [1/100, 1/100, 1/100] 0 = MetricResult.undef ∧
    ¬ (calculate_sharpe_ratio [1/100, 1/100, 1/100] 0).IsZero := by
  have hmap : ([(1:ℚ)/100, 1/100, 1/100].map (fun r => r - 0)) = [1/100, 1/100, 1/100] := by
    norm_num
  have hvar : npPopVar [(1:ℚ)/100, 1/100, 1/100] = 0 :=
    npPopVar_const _ (1/100) (by simp) (by intro x hx; simp at hx; simpa using hx)
  have h : calculate_sharpe_ratio [1/100, 1/100, 1/100] 0 = MetricResult.undef := by
    simp only [calculate_sharpe_ratio, hmap, divStd]
    rw [if_pos hvar]
  exact ⟨h, by rw [h]; simp [MetricResult.IsZero]⟩

/-- C3 amended: for every nonempty constant return series the population
standard deviation of the excess returns is zero, and
`calculate_sharpe_ratio` divides by it, producing an undefined float
(`inf`/`nan`) rather than `0`. -/
theorem C3_amended (xs : List ℚ) (c rfr : ℚ) (hne : xs ≠ []) (h : ∀ x ∈ xs, x = c) :
    calculate_sharpe_ratio xs rfr = MetricResult.undef := by
  have hmapne : xs.map (fun r => r - rfr) ≠ [] := by
    simpa [List.map_eq_nil_iff] using hne
  have hconst : ∀ y ∈ xs.map (fun r => r - rfr), y = c - rfr := by
    intro y hy
    rcases List.mem_map.mp hy with ⟨x, hx, rfl⟩
    rw [h x hx]
  have hvar := npPopVar_const _ (c - rfr) hmapne hconst
  simp [calculate_sharpe_ratio, divStd, hvar]

/-- Witness for C3 (amended) at the concrete constant series `[2, 2]` with
risk-free rate `1`. -/
theorem C3_witness : calculate_sharpe_ratio [2, 2] 1 = MetricResult.undef :=
  C3_amended [2, 2] 2 1 (by simp) (by intro x hx; simp at hx; exact hx)

/-! ### Claim C9 — Sortino ratio -/

/-- C9: `calculate_sortino_ratio` returns the exact value `0` when the excess
returns contain no negative element, and otherwise the mean excess return
divided by the population standard deviation of the negative excess returns
(the returns below the risk-free rate, shifted by it); the division is the
float division of `divStd`, undefined exactly when that standard deviation is
zero. -/
theorem C9_sortino (returns : List ℚ) (rfr : ℚ) :
    ((∀ e ∈ returns.map (fun r => r - rfr), 0 ≤ e) →
      calculate_sortino_ratio returns rfr = MetricResult.val 0) ∧
    (specDownside returns rfr ≠ [] →
      calculate_sortino_ratio returns rfr =
        divStd (npMean (returns.map (fun r => r - rfr)))
          (npPopVar (specDownside returns rfr))) := by
  have hfe := downside_filter_eq returns rfr
  constructor
  · intro h
    have hnil : (returns.map (fun r => r - rfr)).filter (fun e => e < 0) = [] := by
      apply List.filter_eq_nil_iff.mpr
      intro a ha
      simpa using not_lt.mpr (h a ha)
    simp [calculate_sortino_ratio, hnil]
  · intro h
    have hne : (returns.map (fun r => r - rfr)).filter (fun e => e < 0) ≠ [] := by
      rw [hfe]
      exact h
    rw [calculate_sortino_ratio, if_neg hne, hfe]

/-- Witness for C9: an all-gaining series yields the exact value 0; the
series `[0.1, -0.5, 0.1]` has the single negative excess return `-0.5`. -/
theorem C9_witness :
    calculate_sortino_ratio [1, 2] 0 = MetricResult.val 0 ∧
    calculate_sortino_ratio [1/10, -1/2, 1/10] 0 =
      divStd (npMean ([1/10, -1/2, 1/10].map (fun r => r - 0)))
        (npPopVar (specDownside [1/10, -1/2, 1/10] 0)) := by
  constructor
  · refine (C9_sortino [1, 2] 0).1 ?_
    intro e he
    norm_num at he
    rcases he with rfl | rfl <;> norm_num
  · refine (C9_sortino [1/10, -1/2, 1/10] 0).2 ?_
    norm_num [specDownside, List.filter]

/-! ### Claims C1 and C10 — the cooldown gate -/

/-- `_send_alert` on a key that never fired: the notification is sent, but
(because of the shadowed `_save_alert_history`) no other state changes. -/
theorem send_alert_step_none (cp : ℚ) (st : AMState) (a : CandidateAlert) (now : ℚ)
    (h : st.last_alert_time (alertKey a) = none) :
    send_alert_step cp st a now =
      (⟨st.last_alert_time, st.history, st.sent ++ [a]⟩, true) := by
  simp [send_alert_step, h]

/-- `_send_alert` within the cooldown window: suppressed, state returned
untouched. -/
theorem send_alert_step_suppressed (cp : ℚ) (st : AMState) (a : CandidateAlert) (now last : ℚ)
    (h : st.last_alert_time (alertKey a) = some last) (hlt : now - last < cp) :
    send_alert_step cp st a now = (st, false) := by
  simp [send_alert_step, h, hlt]

/-- `_send_alert` at or after the cooldown boundary: the notification is
sent, but no other state changes. -/
theorem send_alert_step_elapsed (cp : ℚ) (st : AMState) (a : CandidateAlert) (now last : ℚ)
    (h : st.last_alert_time (alertKey a) = some last) (hge : ¬ now - last < cp) :
    send_alert_step cp st a now =
      (⟨st.last_alert_time, st.history, st.sent ++ [a]⟩, true) := by
  simp [send_alert_step, h, hge]

/-- C1 (code bug): because the 3-parameter `_save_alert_history` (line 352)
shadows the dict version (line 190), `_send_alert`'s history write and
`lastFiredAt` update die in a `TypeError` swallowed at line 152, so the gate
never records a firing.  Concretely, with a 300s cooldown and an empty map,
a breach at t = 0 and a second breach at t = 100 — inside the window — are
BOTH sent (the claim requires exactly one), and afterwards the map still has
no entry and no history row exists.  The sibling `send_alert` /
`_check_cooldown` path, where the history call does bind, realises exactly
the claimed behaviour: sent at t = 0, suppressed at t = 100, sent again at
t = 301. -/
theorem C1_shadowing_bug :
    (send_alert_step 300 ⟨fun _ => none, [], []⟩ ⟨"cpu_usage", ""⟩ 0).2 = true ∧
    (send_alert_step 300 (send_alert_step 300 ⟨fun _ => none, [], []⟩ ⟨"cpu_usage", ""⟩ 0).1
      ⟨"cpu_usage", ""⟩ 100).2 = true ∧
    (send_alert_step 300 (send_alert_step 300 ⟨fun _ => none, [], []⟩ ⟨"cpu_usage", ""⟩ 0).1
      ⟨"cpu_usage", ""⟩ 100).1.last_alert_time ("cpu_usage", "") = none ∧
    (send_alert_step 300 (send_alert_step 300 ⟨fun _ => none, [], []⟩ ⟨"cpu_usage", ""⟩ 0).1
      ⟨"cpu_usage", ""⟩ 100).1.history = [] ∧
    (send_alert_step 300 (send_alert_step 300 ⟨fun _ => none, [], []⟩ ⟨"cpu_usage", ""⟩ 0).1
      ⟨"cpu_usage", ""⟩ 100).1.sent = [⟨"cpu_usage", ""⟩, ⟨"cpu_usage", ""⟩] ∧
    (send_alert_typed 300 ⟨fun _ => none, [], [], []⟩ "cpu_usage" "high" "m"
      (some ⟨true, true, true⟩) 0).2 = SendAlertOutcome.sent ∧
    (send_alert_typed 300
      (send_alert_typed 300 ⟨fun _ => none, [], [], []⟩ "cpu_usage" "high" "m"
        (some ⟨true, true, true⟩) 0).1 "cpu_usage" "high" "m"
      (some ⟨true, true, true⟩) 100).2 = SendAlertOutcome.suppressed ∧
    (send_alert_typed 300
      (send_alert_typed 300
        (send_alert_typed 300 ⟨fun _ => none, [], [], []⟩ "cpu_usage" "high" "m"
          (some ⟨true, true, true⟩) 0).1 "cpu_usage" "high" "m"
        (some ⟨true, true, true⟩) 100).1 "cpu_usage" "high" "m"
      (some ⟨true, true, true⟩) 301).2 = SendAlertOutcome.sent := by
  refine ⟨rfl, rfl, rfl, rfl, rfl, rfl, ?_, ?_⟩ <;>
    norm_num [send_alert_typed, check_cooldown]

/-- C10: a cooldown-suppressed candidate leaves all alert-manager state
unchanged on both code paths — no notification is handed to a channel, no
history row is written, and the cooldown map keeps its previous contents.
Moreover `_send_alert` leaves `last_alert_time` and the history untouched on
every step (its admission-time update is dead code, see `send_alert_step`),
and on the `send_alert` path `last_alert_time` can only change when the call
ends in a full admission (`sent`) — so the stored `lastFiredAt` is only ever
changed by an admission. -/
theorem C10_suppression_frame (cp : ℚ) (st : AMState) (a : CandidateAlert) (now : ℚ)
    (st2 : SendAlertState) (t sev msg : String) (cfg : Option SendConfig) (now2 : ℚ) :
    ((send_alert_step cp st a now).2 = false →
      (send_alert_step cp st a now).1.last_alert_time = st.last_alert_time ∧
      (send_alert_step cp st a now).1.history = st.history ∧
      (send_alert_step cp st a now).1.sent = st.sent) ∧
    ((send_alert_step cp st a now).1.last_alert_time = st.last_alert_time ∧
      (send_alert_step cp st a now).1.history = st.history) ∧
    ((send_alert_typed cp st2 t sev msg cfg now2).2 = SendAlertOutcome.suppressed →
      (send_alert_typed cp st2 t sev msg cfg now2).1 = st2) ∧
    ((send_alert_typed cp st2 t sev msg cfg now2).2 ≠ SendAlertOutcome.sent →
      (send_alert_typed cp st2 t sev msg cfg now2).1.last_alert_time =
        st2.last_alert_time) := by
  refine ⟨?_, ?_, ?_, ?_⟩
  · intro h
    rcases hl : st.last_alert_time (alertKey a) with _ | last
    · rw [send_alert_step_none cp st a now hl] at h
      simp at h
    · by_cases hlt : now - last < cp
      · rw [send_alert_step_suppressed cp st a now last hl hlt]
        exact ⟨rfl, rfl, rfl⟩
      · rw [send_alert_step_elapsed cp st a now last hl hlt] at h
        simp at h
  · rcases hl : st.last_alert_time (alertKey a) with _ | last
    · rw [send_alert_step_none cp st a now hl]
      exact ⟨rfl, rfl⟩
    · by_cases hlt : now - last < cp
      · rw [send_alert_step_suppressed cp st a now last hl hlt]
        exact ⟨rfl, rfl⟩
      · rw [send_alert_step_elapsed cp st a now last hl hlt]
        exact ⟨rfl, rfl⟩
  · intro h
    by_cases hc : check_cooldown cp st2.last_alert_time t now2 = true
    · exfalso
      rcases cfg with _ | c
      · simp [send_alert_typed, hc] at h
      · by_cases he : c.enabled = true
        · simp [send_alert_typed, hc, he] at h
        · simp [send_alert_typed, hc, he] at h
    · simp [send_alert_typed, hc]
  · intro h
    by_cases hc : check_cooldown cp st2.last_alert_time t now2 = true
    · rcases cfg with _ | c
      · simp [send_alert_typed, hc]
      · by_cases he : c.enabled = true
        · exfalso
          apply h
          simp [send_alert_typed, hc, he]
        · simp [send_alert_typed, hc, he]
    · simp [send_alert_typed, hc]

/-- Witness for C10: on each path, a candidate arriving 100s into a 300s
cooldown is suppressed with every state field unchanged. -/
theorem C10_witness :
    ((send_alert_step 300
        ⟨fun k => if k = ("cpu_usage", "") then some 0 else none, [], []⟩
        ⟨"cpu_usage", ""⟩ 100).1.last_alert_time =
      (⟨fun k => if k = ("cpu_usage", "") then some 0 else none, [], []⟩ :
        AMState).last_alert_time ∧
     (send_alert_step 300
        ⟨fun k => if k = ("cpu_usage", "") then some 0 else none, [], []⟩
        ⟨"cpu_usage", ""⟩ 100).1.history =
      (⟨fun k => if k = ("cpu_usage", "") then some 0 else none, [], []⟩ :
        AMState).history ∧
     (send_alert_step 300
        ⟨fun k => if k = ("cpu_usage", "") then some 0 else none, [], []⟩
        ⟨"cpu_usage", ""⟩ 100).1.sent =
      (⟨fun k => if k = ("cpu_usage", "") then some 0 else none, [], []⟩ :
        AMState).sent) ∧
    (send_alert_typed 300
        ⟨fun k => if k = "cpu_usage" then some 0 else none, [], [], []⟩
        "cpu_usage" "high" "m" (some ⟨true, true, true⟩) 100).1 =
      ⟨fun k => if k = "cpu_usage" then some 0 else none, [], [], []⟩ :=
  ⟨(C10_suppression_frame 300
      ⟨fun k => if k = ("cpu_usage", "") then some 0 else none, [], []⟩
      ⟨"cpu_usage", ""⟩ 100
      ⟨fun k => if k = "cpu_usage" then some 0 else none, [], [], []⟩
      "cpu_usage" "high" "m" (some ⟨true, true, true⟩) 100).1
      (by norm_num [send_alert_step, alertKey]),
    (C10_suppression_frame 300
      ⟨fun k => if k = ("cpu_usage", "") then some 0 else none, [], []⟩
      ⟨"cpu_usage", ""⟩ 100
      ⟨fun k => if k = "cpu_usage" then some 0 else none, [], [], []⟩
      "cpu_usage" "high" "m" (some ⟨true, true, true⟩) 100).2.2.1
      (by norm_num [send_alert_typed, check_cooldown])⟩

/-! ### Claim C6 — alert resolution -/

/-- When some row carries the id, `setResolved` produces a row with that id
whose `resolved_at` is the new time. -/
theorem setResolved_mem (alert_id : ℕ) (now : ℚ) :
    ∀ db : List RiskAlertRow, (∃ a ∈ db, a.id = alert_id) →
      ∃ b ∈ setResolved alert_id now db, b.id = alert_id ∧ b.resolved_at = some now := by
  intro db
  induction db with
  | nil => rintro ⟨a, ha, _⟩; simp at ha
  | cons a rest ih =>
    intro hex
    by_cases h : a.id = alert_id
    · refine ⟨{ a with resolved_at := some now }, ?_, h, rfl⟩
      simp [setResolved, h]
    · rcases hex with ⟨b, hb, hbid⟩
      rcases List.mem_cons.mp hb with rfl | hbrest
      · exact absurd hbid h
      · rcases ih ⟨b, hbrest, hbid⟩ with ⟨c, hc, hcid, hcres⟩
        refine ⟨c, ?_, hcid, hcres⟩
        simp [setResolved, h]
        exact Or.inr hc

/-- `monSetResolved` is idempotent. -/
theorem monSetResolved_idem (alert_id : ℕ) :
    ∀ db : List MonAlertRow,
      monSetResolved alert_id (monSetResolved alert_id db) = monSetResolved alert_id db := by
  intro db
  induction db with
  | nil => rfl
  | cons a rest ih =>
    by_cases h : a.id = alert_id
    · simp [monSetResolved, h]
    · simp [monSetResolved, h, ih]

/-- `monSetResolved` keeps a row with the looked-up id findable. -/
theorem monSetResolved_find (alert_id : ℕ) :
    ∀ db : List MonAlertRow, (db.find? (fun x => x.id = alert_id)).isSome →
      ((monSetResolved alert_id db).find? (fun x => x.id = alert_id)).isSome := by
  intro db
  induction db with
  | nil => simp
  | cons a rest ih =>
    intro hf
    by_cases h : a.id = alert_id
    · simp [monSetResolved, h, List.find?]
    · have hd : (decide (a.id = alert_id)) = false := by simp [h]
      simp only [monSetResolved, if_neg h, List.find?, hd] at hf ⊢
      exact ih hf

/-- C6 counterexample: resolving the already-resolved alert 1 (first
resolved at time 10) again at time 20 succeeds but overwrites `resolved_at`
with 20, so `resolved_at` does not keep the value of the first
resolution. -/
theorem C6_counterexample :
    resolve_alert [⟨1, none⟩] 1 10 = Except.ok [⟨1, some 10⟩] ∧
    resolve_alert [⟨1, some 10⟩] 1 20 = Except.ok [⟨1, some 20⟩] ∧
    (⟨1, some 20⟩ : RiskAlertRow).resolved_at ≠ some 10 := by
  refine ⟨?_, ?_, ?_⟩
  · simp [resolve_alert, setResolved, List.find?]
  · simp [resolve_alert, setResolved, List.find?]
  · simp only [ne_eq, Option.some.injEq]
    norm_num

/-- C6 amended: `resolve_alert` of the risk service fails exactly when no
alert has the given id, but the failure surfaced to the caller is a 500
internal error — the handler's own 404 is caught by its `except Exception`
and re-raised as a 500, so `NotFound` never reaches the caller.  When the
alert exists — resolved or not — the call succeeds and sets `resolved_at`
to the current time (overwriting any earlier resolution time; there is no
`resolved_by`).  The monitoring service's boolean `resolve_alert` fails the
same way (500, never 404) and is genuinely idempotent. -/
theorem C6_amended (db : List RiskAlertRow) (alert_id : ℕ) (now : ℚ)
    (mdb : List MonAlertRow) (mid : ℕ) :
    ((∃ e, resolve_alert db alert_id now = Except.error e) ↔
      ∀ a ∈ db, a.id ≠ alert_id) ∧
    (∀ e, resolve_alert db alert_id now = Except.error e →
      e.status_code = 500 ∧ e.status_code ≠ 404) ∧
    ((∃ a ∈ db, a.id = alert_id) →
      ∃ db', resolve_alert db alert_id now = Except.ok db' ∧
        ∃ b ∈ db', b.id = alert_id ∧ b.resolved_at = some now) ∧
    (∀ e, mon_resolve_alert mdb mid = Except.error e →
      e.status_code = 500 ∧ e.status_code ≠ 404) ∧
    (∀ mdb', mon_resolve_alert mdb mid = Except.ok mdb' →
      mon_resolve_alert mdb' mid = Except.ok mdb') := by
  refine ⟨?_, ?_, ?_, ?_, ?_⟩
  · rcases hf : db.find? (fun x => x.id = alert_id) with _ | a
    · refine iff_of_true ⟨⟨500⟩, by simp [resolve_alert, hf]⟩ ?_
      intro a ha
      simpa using List.find?_eq_none.mp hf a ha
    · have hmem := List.mem_of_find?_eq_some hf
      have hid : a.id = alert_id := by simpa using List.find?_some hf
      refine iff_of_false ?_ ?_
      · rintro ⟨e, he⟩
        rw [resolve_alert, hf] at he
        exact Except.noConfusion he
      · intro hall
        exact hall a hmem hid
  · intro e he
    rcases hf : db.find? (fun x => x.id = alert_id) with _ | a
    · rw [resolve_alert, hf] at he
      have : (⟨500⟩ : HTTPError) = e := by
        exact Except.error.inj he
      rw [← this]
      exact ⟨rfl, by norm_num⟩
    · rw [resolve_alert, hf] at he
      exact Except.noConfusion he
  · intro hex
    rcases hf : db.find? (fun x => x.id = alert_id) with _ | a
    · rw [List.find?_eq_none] at hf
      rcases hex with ⟨a, ha, hid⟩
      exact absurd hid (by simpa using hf a ha)
    · exact ⟨setResolved alert_id now db, by simp [resolve_alert, hf],
        setResolved_mem alert_id now db hex⟩
  · intro e he
    rcases hf : mdb.find? (fun x => x.id = mid) with _ | a
    · rw [mon_resolve_alert, hf] at he
      have : (⟨500⟩ : HTTPError) = e := by
        exact Except.error.inj he
      rw [← this]
      exact ⟨rfl, by norm_num⟩
    · rw [mon_resolve_alert, hf] at he
      exact Except.noConfusion he
  · intro mdb' h
    rcases hf : mdb.find? (fun x => x.id = mid) with _ | a
    · simp [mon_resolve_alert, hf] at h
    · have h' : mdb' = monSetResolved mid mdb := by
        simpa [mon_resolve_alert, hf] using h.symm
      have hthere := monSetResolved_find mid mdb (by simp [hf])
      rcases ho : (monSetResolved mid mdb).find? (fun x => x.id = mid) with _ | b
      · rw [ho] at hthere
        simp at hthere
      · subst h'
        simp [mon_resolve_alert, ho, monSetResolved_idem]

/-- Witness for C6 (amended): resolving the already-resolved risk alert 1
at time 20 succeeds with `resolved_at = 20`; resolving the absent alert 7
surfaces a 500 (not a 404); a second monitoring-service resolve of alert 2
is a no-op success. -/
theorem C6_witness :
    (∃ db', resolve_alert [⟨1, some 10⟩] 1 20 = Except.ok db' ∧
        ∃ b ∈ db', b.id = 1 ∧ b.resolved_at = some 20) ∧
    ((⟨500⟩ : HTTPError).status_code = 500 ∧ (⟨500⟩ : HTTPError).status_code ≠ 404) ∧
    mon_resolve_alert [⟨2, true⟩] 2 = Except.ok [⟨2, true⟩] :=
  ⟨(C6_amended [⟨1, some 10⟩] 1 20 [] 0).2.2.1 ⟨⟨1, some 10⟩, by simp, rfl⟩,
    (C6_amended [] 7 0 [] 0).2.1 ⟨500⟩ (by simp [resolve_alert, List.find?]),
    (C6_amended [] 0 0 [⟨2, false⟩] 2).2.2.2.2 [⟨2, true⟩]
      (by simp [mon_resolve_alert, monSetResolved, List.find?])⟩

/-! ### Claim C7 — notification dispatch -/

/-- C7 counterexample: with both channels failing, `send_alert` detects and
logs the all-channels-failed condition but returns `None`, so no
`AllChannelsFailed` result reaches the caller; with one channel succeeding
it likewise returns `None` rather than an overall success value. -/
theorem C7_counterexample :
    (send_alert "high_resource" ⟨"", "", "", ""⟩ "" (Except.error "smtp down")
        (Except.error "webhook down")).logged_all_failed = true ∧
    (send_alert "high_resource" ⟨"", "", "", ""⟩ "" (Except.error "smtp down")
        (Except.error "webhook down")).returned ≠ some DispatchResult.allChannelsFailed ∧
    (send_alert "high_resource" ⟨"u", "p", "f", "t"⟩ "" (Except.ok ())
        (Except.error "webhook down")).email_sent = true ∧
    (send_alert "high_resource" ⟨"u", "p", "f", "t"⟩ "" (Except.ok ())
        (Except.error "webhook down")).returned ≠ some DispatchResult.success := by
  refine ⟨?_, ?_, ?_, ?_⟩ <;>
    simp [send_alert, send_email, send_slack, emailConfigComplete, alertTemplates]

/-- C7 amended: `send_alert` always returns `None` to its caller (neither
success nor `AllChannelsFailed` is surfaced); for a known alert type it
attempts both channels independently and logs the all-failed condition
exactly when both channel sends report failure; each channel send catches
its own exception and reports `False`, so dispatch never raises. -/
theorem C7_amended (alert_type : String) (cfg : EmailConfig) (wh : String)
    (eOp sOp : Except String Unit) :
    (send_alert alert_type cfg wh eOp sOp).returned = none ∧
    (alert_type ∈ alertTemplates →
      ((send_alert alert_type cfg wh eOp sOp).logged_all_failed = true ↔
        (send_alert alert_type cfg wh eOp sOp).email_sent = false ∧
        (send_alert alert_type cfg wh eOp sOp).slack_sent = false)) ∧
    (alert_type ∈ alertTemplates →
      (send_alert alert_type cfg wh eOp sOp).email_sent = send_email cfg eOp ∧
      (send_alert alert_type cfg wh eOp sOp).slack_sent = send_slack wh sOp) ∧
    (∀ msg, send_email cfg (Except.error msg) = false) ∧
    (∀ msg, send_slack wh (Except.error msg) = false) := by
  refine ⟨?_, ?_, ?_, ?_, ?_⟩
  · by_cases h : alert_type ∈ alertTemplates <;> simp [send_alert, h]
  · intro h
    simp [send_alert, h, Bool.and_eq_true, Bool.not_eq_true']
  · intro h
    simp [send_alert, h]
  · intro msg
    unfold send_email
    split <;> rfl
  · intro msg
    unfold send_slack
    split <;> rfl

/-- Witness for C7 (amended) at a concrete known alert type with one
succeeding channel. -/
theorem C7_witness :
    (send_alert "service_down" ⟨"u", "p", "f", "t"⟩ "hook" (Except.ok ())
      (Except.error "down")).returned = none ∧
    ((send_alert "service_down" ⟨"u", "p", "f", "t"⟩ "hook" (Except.ok ())
        (Except.error "down")).logged_all_failed = true ↔
      (send_alert "service_down" ⟨"u", "p", "f", "t"⟩ "hook" (Except.ok ())
          (Except.error "down")).email_sent = false ∧
      (send_alert "service_down" ⟨"u", "p", "f", "t"⟩ "hook" (Except.ok ())
          (Except.error "down")).slack_sent = false) :=
  ⟨(C7_amended "service_down" ⟨"u", "p", "f", "t"⟩ "hook" (Except.ok ())
      (Except.error "down")).1,
    (C7_amended "service_down" ⟨"u", "p", "f", "t"⟩ "hook" (Except.ok ())
      (Except.error "down")).2.1 (by simp [alertTemplates])⟩

/-! ### Claims C4 and C5 — VaR and Expected Shortfall -/

/-- A confidence level in `[0, 1]` yields a percentile in NumPy's accepted
range `[0, 100]`. -/
theorem var_q_in_range (conf : ℚ) (h0 : 0 ≤ conf) (h1 : conf ≤ 1) :
    ¬((1 - conf) * 100 < 0 ∨ 100 < (1 - conf) * 100) := by
  push_neg
  constructor <;> nlinarith

/-- For a valid confidence level, `calculate_var` on a nonempty series
returns the interpolated percentile. -/
theorem calculate_var_ok (xs : List ℚ) (conf : ℚ) (hne : xs ≠ [])
    (h0 : 0 ≤ conf) (h1 : conf ≤ 1) :
    calculate_var xs conf = Except.ok (npPercentile xs ((1 - conf) * 100)) := by
  rw [calculate_var, if_neg (var_q_in_range conf h0 h1), if_neg hne]

/-- NumPy's `a + frac * (b - a)` interpolation coincides with the spec's
convex combination `(1 - frac) * a + frac * b`. -/
theorem npPercentile_eq_spec (xs : List ℚ) (q : ℚ) :
    npPercentile xs q = specPercentile xs q := by
  simp only [npPercentile, specPercentile]
  ring

/-- Linear interpolation within a sorted list, with a nonnegative fraction,
stays at or above any lower bound of the list. -/
theorem sorted_interp_lower (s : List ℚ) (hss : s.Sorted (· ≤ ·)) (m : ℚ)
    (hm_le : ∀ x ∈ s, m ≤ x) (lo : ℕ) (hlo : lo < s.length) (f : ℚ) (hf : 0 ≤ f) :
    m ≤ s.getD lo 0 + f * (s.getD (lo + 1) (s.getD lo 0) - s.getD lo 0) := by
  have hma : m ≤ s.getD lo 0 := by
    apply hm_le
    rw [List.getD_eq_get _ _ hlo]
    exact List.get_mem _ _ _
  by_cases hnext : lo + 1 < s.length
  · have hab : s.getD lo 0 ≤ s.getD (lo + 1) (s.getD lo 0) := by
      rw [List.getD_eq_get _ _ hlo, List.getD_eq_get _ _ hnext]
      exact hss.rel_get_of_lt (Nat.lt_succ_self _)
    nlinarith
  · rw [@List.getD_eq_default _ s (s.getD lo 0) (lo + 1) (by omega)]
    simpa using hma

/-- The interpolated percentile of a nonempty series is at least one member
of the series (namely the minimum). -/
theorem exists_le_npPercentile (xs : List ℚ) (q : ℚ) (hne : xs ≠ [])
    (hq0 : 0 ≤ q) (hq1 : q ≤ 100) :
    ∃ r ∈ xs, r ≤ npPercentile xs q := by
  have hsp : (npSort xs).Perm xs := List.perm_insertionSort _ xs
  have hss : (npSort xs).Sorted (· ≤ ·) := List.sorted_insertionSort _ xs
  have hslen : (npSort xs).length = xs.length := hsp.length_eq
  have hn1 : 1 ≤ xs.length := List.length_pos.mpr hne
  have hn1q : (1 : ℚ) ≤ (xs.length : ℚ) := by exact_mod_cast hn1
  have hq100 : q / 100 ≤ 1 := by
    rw [div_le_one (by norm_num)]
    exact hq1
  have hpos : 0 ≤ q / 100 * ((xs.length : ℚ) - 1) := by
    apply mul_nonneg (by positivity)
    linarith
  have hub : q / 100 * ((xs.length : ℚ) - 1) ≤ (xs.length : ℚ) - 1 := by
    calc q / 100 * ((xs.length : ℚ) - 1) ≤ 1 * ((xs.length : ℚ) - 1) := by
          apply mul_le_mul_of_nonneg_right hq100
          linarith
      _ = (xs.length : ℚ) - 1 := one_mul _
  have hlo : ⌊q / 100 * ((xs.length : ℚ) - 1)⌋₊ < xs.length := by
    rw [Nat.floor_lt hpos]
    linarith
  rcases hs : npSort xs with _ | ⟨m, tail⟩
  · rw [hs] at hslen
    exact absurd hslen.symm (by simpa using hne)
  have hm_mem : m ∈ xs := (hsp.mem_iff).mp (by rw [hs]; exact List.mem_cons_self m tail)
  have hm_le : ∀ x ∈ npSort xs, m ≤ x := by
    intro x hx
    rw [hs] at hx
    have hss' := hss
    rw [hs] at hss'
    rcases List.mem_cons.mp hx with rfl | hx
    · exact le_refl x
    · exact List.rel_of_sorted_cons hss' x hx
  refine ⟨m, hm_mem, ?_⟩
  rw [npPercentile]
  exact sorted_interp_lower (npSort xs) hss m hm_le _ (by rw [hslen]; exact hlo) _
    (by have := Nat.floor_le hpos; linarith)

/-- C4: `calculate_var` fails with `InsufficientData` exactly on the empty
series; on every nonempty series (for a confidence level in `[0, 1]`) it
returns the `(1-confidence)`-percentile with linear interpolation between
ranks. -/
theorem C4_var (returns : List ℚ) (conf : ℚ) (h0 : 0 ≤ conf) (h1 : conf ≤ 1) :
    (calculate_var returns conf = Except.error VarError.insufficientData ↔ returns = []) ∧
    (returns ≠ [] →
      calculate_var returns conf = Except.ok (specPercentile returns ((1 - conf) * 100))) := by
  constructor
  · constructor
    · intro h
      by_contra hne
      rw [calculate_var_ok returns conf hne h0 h1] at h
      exact Except.noConfusion h
    · intro hnil
      subst hnil
      rw [calculate_var, if_neg (var_q_in_range conf h0 h1), if_pos rfl]
  · intro hne
    rw [calculate_var_ok returns conf hne h0 h1, npPercentile_eq_spec]

/-- Witness for C4 at the spec's reference series and confidence 0.95; the
reference value -0.018 is checked by evaluation. -/
theorem C4_witness :
    (calculate_var [] (19/20) = Except.error VarError.insufficientData) ∧
    calculate_var [1/100, -1/50, 3/100, -1/100, 1/25] (19/20) =
      Except.ok (specPercentile [1/100, -1/50, 3/100, -1/100, 1/25] ((1 - 19/20) * 100)) ∧
    specPercentile [1/100, -1/50, 3/100, -1/100, 1/25] ((1 - 19/20) * 100) = -9/500 := by
  refine ⟨(C4_var [] (19/20) (by norm_num) (by norm_num)).1.mpr rfl,
    (C4_var [1/100, -1/50, 3/100, -1/100, 1/25] (19/20) (by norm_num) (by norm_num)).2
      (by simp), ?_⟩
  have hfl : (⌊((1:ℚ) - 19/20) * 100 / 100 *
      ((([(1:ℚ)/100, -1/50, 3/100, -1/100, 1/25].length) : ℚ) - 1)⌋₊ : ℕ) = 0 := by
    norm_num
  rw [specPercentile, hfl]
  norm_num [npSort, List.insertionSort, List.orderedInsert, List.getD_cons_zero,
    List.getD_cons_succ]

/-- C5: for every nonempty series and confidence level in `[0, 1]`,
`calculate_expected_shortfall` succeeds with the mean of the returns lying
at or below VaR; that set always contains the series minimum, so it is never
empty and the degenerate branch (empty tail, `np.mean` of `[]` = `nan`)
cannot occur. -/
theorem C5_expected_shortfall (returns : List ℚ) (conf : ℚ) (hne : returns ≠ [])
    (h0 : 0 ≤ conf) (h1 : conf ≤ 1) :
    ∃ var, calculate_var returns conf = Except.ok var ∧
      returns.filter (fun r => r ≤ var) ≠ [] ∧
      calculate_expected_shortfall returns conf =
        Except.ok (some (npMean (returns.filter (fun r => r ≤ var)))) := by
  have hok := calculate_var_ok returns conf hne h0 h1
  have hq0 : 0 ≤ (1 - conf) * 100 := by nlinarith
  have hq1 : (1 - conf) * 100 ≤ 100 := by nlinarith
  obtain ⟨r, hr, hrle⟩ := exists_le_npPercentile returns ((1 - conf) * 100) hne hq0 hq1
  have hfil : returns.filter (fun x => x ≤ npPercentile returns ((1 - conf) * 100)) ≠ [] :=
    List.ne_nil_of_mem (List.mem_filter.mpr ⟨hr, by simpa using hrle⟩)
  refine ⟨npPercentile returns ((1 - conf) * 100), hok, hfil, ?_⟩
  rw [calculate_expected_shortfall, hok]
  simp only [Except.map, npMeanNaN]
  rw [if_neg hfil]

/-- Witness for C5 at the spec's reference series: the tail at or below the
5th percentile is `[-0.02]`. -/
theorem C5_witness :
    ∃ var, calculate_var [1/100, -1/50, 3/100, -1/100, 1/25] (19/20) = Except.ok var ∧
      [(1:ℚ)/100, -1/50, 3/100, -1/100, 1/25].filter (fun r => r ≤ var) ≠ [] ∧
      calculate_expected_shortfall [1/100, -1/50, 3/100, -1/100, 1/25] (19/20) =
        Except.ok (some (npMean
          ([(1:ℚ)/100, -1/50, 3/100, -1/100, 1/25].filter (fun r => r ≤ var)))) :=
  C5_expected_shortfall [1/100, -1/50, 3/100, -1/100, 1/25] (19/20) (by simp)
    (by norm_num) (by norm_num)

/-! ### Claim C8 — maximum drawdown -/

theorem cumprodFrom_length (acc : ℚ) (l : List ℚ) :
    (cumprodFrom acc l).length = l.length := by
  induction l generalizing acc with
  | nil => rfl
  | cons x t ih => simp [cumprodFrom, ih]

theorem runmaxFrom_length (m : ℚ) (l : List ℚ) :
    (runmaxFrom m l).length = l.length := by
  induction l generalizing m with
  | nil => rfl
  | cons x t ih => simp [runmaxFrom, ih]

theorem npMaxAccumulate_length (l : List ℚ) : (npMaxAccumulate l).length = l.length := by
  cases l with
  | nil => rfl
  | cons x t => simp [npMaxAccumulate, runmaxFrom_length]

/-- Entry `i` of a running product: the seed times the product of the first
`i + 1` factors. -/
theorem cumprodFrom_getD (l : List ℚ) :
    ∀ (acc : ℚ) (i : ℕ), i < l.length →
      (cumprodFrom acc l).getD i 0 = acc * (l.take (i + 1)).prod := by
  induction l with
  | nil => intro acc i hi; simp at hi
  | cons x t ih =>
    intro acc i hi
    cases i with
    | zero => simp [cumprodFrom]
    | succ i =>
      have hi' : i < t.length := by simpa using hi
      simp only [cumprodFrom, List.getD_cons_succ]
      rw [List.take_succ_cons, List.prod_cons, ih (acc * x) i hi']
      ring

/-- Entry `i` of `runmaxFrom`: the fold of `max` over the first `i + 1`
elements, seeded with `m`. -/
theorem runmaxFrom_getD (l : List ℚ) :
    ∀ (m : ℚ) (i : ℕ), i < l.length →
      (runmaxFrom m l).getD i 0 = (l.take (i + 1)).foldl max m := by
  induction l with
  | nil => intro m i hi; simp at hi
  | cons x t ih =>
    intro m i hi
    cases i with
    | zero => simp [runmaxFrom]
    | succ i =>
      have hi' : i < t.length := by simpa using hi
      simp only [runmaxFrom, List.getD_cons_succ, List.take_cons, List.foldl_cons]
      exact ih (max m x) i hi'

/-- Entry `i` of the running maximum of `y :: t`: the fold of `max` over the
first `i` elements of `t`, seeded with `y`. -/
theorem npMaxAccumulate_getD (y : ℚ) (t : List ℚ) (i : ℕ) (hi : i < (y :: t).length) :
    (npMaxAccumulate (y :: t)).getD i 0 = (t.take i).foldl max y := by
  cases i with
  | zero => simp [npMaxAccumulate]
  | succ i =>
    have hi' : i < t.length := by simpa using hi
    simp only [npMaxAccumulate, List.getD_cons_succ]
    exact runmaxFrom_getD t y i hi'

/-- Taking one more element appends the element at the cut. -/
theorem take_succ_getD (l : List ℚ) :
    ∀ i : ℕ, i < l.length → l.take (i + 1) = l.take i ++ [l.getD i 0] := by
  induction l with
  | nil => intro i hi; simp at hi
  | cons x t ih =>
    intro i hi
    cases i with
    | zero => simp
    | succ i =>
      have hi' : i < t.length := by simpa using hi
      simp only [List.getD_cons_succ, List.take_succ_cons, ih i hi', List.cons_append]

/-- Successor relation of the running maximum. -/
theorem npMaxAccumulate_getD_succ (ys : List ℚ) (i : ℕ) (hi : i + 1 < ys.length) :
    (npMaxAccumulate ys).getD (i + 1) 0 =
      max ((npMaxAccumulate ys).getD i 0) (ys.getD (i + 1) 0) := by
  cases ys with
  | nil => simp at hi
  | cons y t =>
    have hit : i < t.length := by simpa using hi
    rw [npMaxAccumulate_getD y t (i + 1) hi,
      npMaxAccumulate_getD y t i (by simp; omega),
      take_succ_getD t i hit, List.foldl_append]
    simp

/-- Entry `i` of a `zipWith`. -/
theorem zipWith_getD (f : ℚ → ℚ → ℚ) (l1 : List ℚ) :
    ∀ (l2 : List ℚ) (i : ℕ), i < l1.length → i < l2.length →
      (List.zipWith f l1 l2).getD i 0 = f (l1.getD i 0) (l2.getD i 0) := by
  induction l1 with
  | nil => intro l2 i hi _; simp at hi
  | cons x t ih =>
    intro l2 i h1 h2
    cases l2 with
    | nil => simp at h2
    | cons y u =>
      cases i with
      | zero => simp
      | succ i =>
        simp only [List.zipWith_cons_cons, List.getD_cons_succ]
        exact ih u i (by simpa using h1) (by simpa using h2)

theorem foldl_min_le_init (t : List ℚ) : ∀ a : ℚ, t.foldl min a ≤ a := by
  induction t with
  | nil => intro a; exact le_refl a
  | cons x t ih =>
    intro a
    calc (x :: t).foldl min a = t.foldl min (min a x) := rfl
      _ ≤ min a x := ih (min a x)
      _ ≤ a := min_le_left a x

theorem foldl_min_le_mem (t : List ℚ) :
    ∀ (a x : ℚ), x ∈ t → t.foldl min a ≤ x := by
  induction t with
  | nil => intro a x hx; simp at hx
  | cons y t ih =>
    intro a x hx
    rcases List.mem_cons.mp hx with rfl | hx
    · calc (x :: t).foldl min a = t.foldl min (min a x) := rfl
        _ ≤ min a x := foldl_min_le_init t (min a x)
        _ ≤ x := min_le_right a x
    · exact ih (min a y) x hx

theorem foldl_min_mem (t : List ℚ) :
    ∀ a : ℚ, t.foldl min a = a ∨ t.foldl min a ∈ t := by
  induction t with
  | nil => intro a; exact Or.inl rfl
  | cons y t ih =>
    intro a
    rcases ih (min a y) with h | h
    · rcases min_choice a y with hm | hm
      · exact Or.inl (by rw [List.foldl_cons, h, hm])
      · refine Or.inr ?_
        rw [List.foldl_cons, h, hm]
        exact List.mem_cons_self y t
    · exact Or.inr (List.mem_cons_of_mem y h)

/-- `np.min` returns a member of the list. -/
theorem npMin_mem (l : List ℚ) (d : ℚ) (h : npMin l = some d) : d ∈ l := by
  cases l with
  | nil => exact Option.noConfusion h
  | cons x t =>
    have hd : t.foldl min x = d := by simpa [npMin] using h
    rcases foldl_min_mem t x with h' | h'
    · have hdx : d = x := hd.symm.trans h'
      rw [hdx]
      exact List.mem_cons_self x t
    · rw [hd] at h'
      exact List.mem_cons_of_mem x h'

/-- `np.min` is a lower bound of the list. -/
theorem npMin_le (l : List ℚ) (d : ℚ) (h : npMin l = some d) : ∀ x ∈ l, d ≤ x := by
  cases l with
  | nil => intro x hx; simp at hx
  | cons y t =>
    have hd : t.foldl min y = d := by simpa [npMin] using h
    intro x hx
    rcases List.mem_cons.mp hx with rfl | hx
    · rw [← hd]
      exact foldl_min_le_init t x
    · rw [← hd]
      exact foldl_min_le_mem t y x hx

/-- Every member sits at some index (as a `getD` value). -/
theorem getD_idx_of_mem (l : List ℚ) (x : ℚ) (h : x ∈ l) :
    ∃ i, i < l.length ∧ l.getD i 0 = x := by
  rcases List.mem_iff_get.mp h with ⟨n, hn⟩
  exact ⟨n.val, n.isLt, by rw [List.getD_eq_get _ _ n.isLt]; exact hn⟩

theorem npMaxAccumulate_getD_zero (ys : List ℚ) (h : 0 < ys.length) :
    (npMaxAccumulate ys).getD 0 0 = ys.getD 0 0 := by
  cases ys with
  | nil => simp at h
  | cons y t => simp [npMaxAccumulate]

theorem npCumprod_map_length (rs : List ℚ) :
    (npCumprod (rs.map (fun r => 1 + r))).length = rs.length := by
  rw [npCumprod, cumprodFrom_length, List.length_map]

/-- Entry `i` of the cumulative product array is the spec's cumulative value
`∏ (1 + r)` over the first `i + 1` returns. -/
theorem cumprod_entry (rs : List ℚ) (i : ℕ) (hi : i < rs.length) :
    (npCumprod (rs.map (fun r => 1 + r))).getD i 0 = specCumulative rs i := by
  have hlen : i < (rs.map (fun r => 1 + r)).length := by simpa using hi
  rw [npCumprod, cumprodFrom_getD _ 1 i hlen, one_mul, specCumulative, ← List.map_take]

/-- Entry `i` of the running-maximum array is the spec's running maximum. -/
theorem runmax_entry (rs : List ℚ) :
    ∀ i, i < rs.length →
      (npMaxAccumulate (npCumprod (rs.map (fun r => 1 + r)))).getD i 0 =
        specRunningMax rs i := by
  intro i
  induction i with
  | zero =>
    intro hi
    have h0 : 0 < (npCumprod (rs.map (fun r => 1 + r))).length := by
      rw [npCumprod_map_length]
      omega
    rw [npMaxAccumulate_getD_zero _ h0, cumprod_entry rs 0 (by omega)]
    rfl
  | succ i ih =>
    intro hi
    have hi' : i < rs.length := by omega
    have hilen : i + 1 < (npCumprod (rs.map (fun r => 1 + r))).length := by
      rw [npCumprod_map_length]
      exact hi
    rw [npMaxAccumulate_getD_succ _ i hilen, ih hi', cumprod_entry rs (i + 1) hi]
    rfl

/-- Each return above `-1` keeps every cumulative value positive. -/
theorem specCumulative_pos (rs : List ℚ) (hgt : ∀ r ∈ rs, -1 < r) (i : ℕ) :
    0 < specCumulative rs i := by
  rw [specCumulative]
  apply List.prod_pos
  intro a ha
  rcases List.mem_map.mp ha with ⟨r, hr, rfl⟩
  have hrs : r ∈ rs := List.take_subset _ _ hr
  linarith [hgt r hrs]

theorem specRunningMax_pos (rs : List ℚ) (hgt : ∀ r ∈ rs, -1 < r) (i : ℕ) :
    0 < specRunningMax rs i := by
  induction i with
  | zero => exact specCumulative_pos rs hgt 0
  | succ i ih =>
    rw [specRunningMax]
    exact lt_max_of_lt_left ih

theorem specCumulative_le_runningMax (rs : List ℚ) (i : ℕ) :
    specCumulative rs i ≤ specRunningMax rs i := by
  cases i with
  | zero => exact le_refl _
  | succ i => exact le_max_right _ _

/-- Every per-period drawdown is non-positive. -/
theorem specDrawdown_nonpos (rs : List ℚ) (hgt : ∀ r ∈ rs, -1 < r) (i : ℕ) :
    specDrawdown rs i ≤ 0 := by
  rw [specDrawdown]
  apply div_nonpos_of_nonpos_of_nonneg
  · linarith [specCumulative_le_runningMax rs i]
  · linarith [specRunningMax_pos rs hgt i]

theorem specCumulative_succ (rs : List ℚ) (i : ℕ) (hi : i + 1 < rs.length) :
    specCumulative rs (i + 1) = specCumulative rs i * (1 + rs.getD (i + 1) 0) := by
  rw [specCumulative, specCumulative, take_succ_getD rs (i + 1) hi, List.map_append,
    List.prod_append]
  simp

/-- With all returns positive the cumulative curve never falls below its
running maximum. -/
theorem specRunningMax_eq_of_pos (rs : List ℚ) (hpos : ∀ r ∈ rs, 0 < r) :
    ∀ i, i < rs.length → specRunningMax rs i = specCumulative rs i := by
  have hgt : ∀ r ∈ rs, -1 < r := fun r hr => by linarith [hpos r hr]
  intro i
  induction i with
  | zero => intro _; rfl
  | succ i ih =>
    intro hi
    have hi' : i < rs.length := by omega
    have hmem : rs.getD (i + 1) 0 ∈ rs := by
      rw [List.getD_eq_get _ _ hi]
      exact List.get_mem _ _ _
    have hc : specCumulative rs i ≤ specCumulative rs (i + 1) := by
      rw [specCumulative_succ rs i hi]
      have hcp := specCumulative_pos rs hgt i
      have hr := hpos _ hmem
      nlinarith
    rw [specRunningMax, ih hi', max_eq_right hc]

theorem drawdownList_length (rs : List ℚ) : (drawdownList rs).length = rs.length := by
  rw [drawdownList, List.length_zipWith, npMaxAccumulate_length, npCumprod_map_length,
    min_self]

/-- Entry `i` of the drawdown array is the spec's per-period drawdown. -/
theorem drawdown_entry (rs : List ℚ) (i : ℕ) (hi : i < rs.length) :
    (drawdownList rs).getD i 0 = specDrawdown rs i := by
  have h1 : i < (npCumprod (rs.map (fun r => 1 + r))).length := by
    rw [npCumprod_map_length]
    exact hi
  have h2 : i < (npMaxAccumulate (npCumprod (rs.map (fun r => 1 + r)))).length := by
    rw [npMaxAccumulate_length, npCumprod_map_length]
    exact hi
  rw [drawdownList, zipWith_getD _ _ _ i h1 h2, cumprod_entry rs i hi, runmax_entry rs i hi,
    specDrawdown]

/-- C8: for every nonempty return series with each return above `-1`,
`calculate_max_drawdown` succeeds with a non-positive value that is the
minimum over the periods of `(cumulative - runningMax) / runningMax` (with
`cumulative` the running product of `1 + r` and `runningMax` its running
maximum), and it is exactly `0` for an all-positive-return (monotonically
increasing) series. -/
theorem C8_max_drawdown (rs : List ℚ) (hne : rs ≠ []) (hgt : ∀ r ∈ rs, -1 < r) :
    ∃ d, calculate_max_drawdown rs = some d ∧ d ≤ 0 ∧
      (∀ i, i < rs.length → d ≤ specDrawdown rs i) ∧
      (∃ i, i < rs.length ∧ d = specDrawdown rs i) ∧
      ((∀ r ∈ rs, 0 < r) → d = 0) := by
  have hdlen : (drawdownList rs).length = rs.length := drawdownList_length rs
  have hdne : drawdownList rs ≠ [] := by
    intro hnil
    rw [hnil] at hdlen
    exact hne (List.length_eq_zero.mp hdlen.symm)
  obtain ⟨d, hd⟩ : ∃ d, npMin (drawdownList rs) = some d := by
    rcases hl : drawdownList rs with _ | ⟨x, t⟩
    · exact absurd hl hdne
    · exact ⟨t.foldl min x, rfl⟩
  obtain ⟨i0, hi0len, hi0⟩ := getD_idx_of_mem _ d (npMin_mem _ d hd)
  have hi0rs : i0 < rs.length := by rw [← hdlen]; exact hi0len
  have hdspec : d = specDrawdown rs i0 := by rw [← hi0, drawdown_entry rs i0 hi0rs]
  refine ⟨d, ?_, ?_, ?_, ⟨i0, hi0rs, hdspec⟩, ?_⟩
  · rw [calculate_max_drawdown]
    exact hd
  · rw [hdspec]
    exact specDrawdown_nonpos rs hgt i0
  · intro i hi
    rw [← drawdown_entry rs i hi]
    apply npMin_le _ d hd
    have hilen : i < (drawdownList rs).length := by rw [hdlen]; exact hi
    rw [List.getD_eq_get _ _ hilen]
    exact List.get_mem _ _ _
  · intro hpos
    rw [hdspec, specDrawdown, specRunningMax_eq_of_pos rs hpos i0 hi0rs, sub_self, zero_div]

/-- Witness for C8 at the spec's example series `[0.1, -0.5, 0.1]`. -/
theorem C8_witness :
    ∃ d, calculate_max_drawdown [1/10, -1/2, 1/10] = some d ∧ d ≤ 0 ∧
      (∀ i, i < [(1:ℚ)/10, -1/2, 1/10].length → d ≤ specDrawdown [1/10, -1/2, 1/10] i) ∧
      (∃ i, i < [(1:ℚ)/10, -1/2, 1/10].length ∧ d = specDrawdown [1/10, -1/2, 1/10] i) ∧
      ((∀ r ∈ [(1:ℚ)/10, -1/2, 1/10], 0 < r) → d = 0) :=
  C8_max_drawdown [1/10, -1/2, 1/10] (by simp)
    (by intro r hr; norm_num at hr; rcases hr with rfl | rfl | rfl <;> norm_num)

end Trading
